import Mathlib

/-!
# The streaming-state controller of `frontend/src/App.jsx`

A shallow embedding of the React component `App`: its four state variables,
the reconciler `updateLastAssistant`, the `onEvent` callback handed to
`api.sendMessageStream`, and the synchronous part and the `catch` branch of
`handleSendMessage`.

Conventions of the embedding.

* A JavaScript field that is `null` or absent is `none`.
* State updates are applied at once, in the order the source issues them.  A
  functional updater that dereferences `null` raises `JsError.typeError`.
* The collaborator `api` is outside the component; a call to it is recorded in
  `State.apiCalls` and what it later delivers (events, resolution, rejection)
  is an input of the model.
-/

namespace App

/-! ## Data model -/

/-- A non-null JSON value that the component stores and forwards unread. -/
structure Payload where
  json : String
deriving DecidableEq, Repr

/-- The exception a state updater raises when it reads a property of `null`. -/
inductive JsError where
  | typeError
deriving DecidableEq, Repr

/-- The `loading` object of an assistant message; an absent key is `none`. -/
structure Loading where
  stage1 : Option Bool
  stage2 : Option Bool
  stage3 : Option Bool
deriving DecidableEq, Repr

/-- One element of `conversation.messages`. -/
structure Message where
  role : String
  content : Option String
  image : Option String
  stage1 : Option Payload
  stage2 : Option Payload
  stage3 : Option Payload
  metadata : Option Payload
  loading : Option Loading
deriving DecidableEq, Repr

/-- The resident conversation; `...prev` keeps `id` and `messages` is replaced. -/
structure Conversation where
  id : String
  messages : List Message
deriving DecidableEq, Repr

/-- An entry of the sidebar list. -/
structure ConversationSummary where
  id : String
  created_at : String
  message_count : Nat
deriving DecidableEq, Repr

/-- The `image` argument of `handleSendMessage` when it is not `null`. -/
structure ImageInput where
  file : String
deriving DecidableEq, Repr

/-- A call issued to the collaborator `api`. -/
inductive ApiCall where
  | sendMessageStream (conversationId : String) (content : String) (image : Option ImageInput)
  | listConversations
deriving DecidableEq, Repr

/-- The four `useState` cells of `App`, and the calls issued to `api` so far
(oldest first). -/
structure State where
  conversations : List ConversationSummary
  currentConversationId : Option String
  currentConversation : Option Conversation
  isLoading : Bool
  apiCalls : List ApiCall
deriving DecidableEq, Repr

/-- The three stages of an assistant turn. -/
inductive Stage where
  | stage1
  | stage2
  | stage3
deriving DecidableEq, Repr

/-- The `case` labels of the `switch (type)` in the `onEvent` callback. -/
inductive EventType where
  | stage1_start
  | stage1_complete
  | stage2_start
  | stage2_complete
  | stage3_start
  | stage3_complete
  | title_complete
  | complete
  | error
deriving DecidableEq, Repr

/-- One delivery `onEvent(type, payload)`; a `null` payload is `none`. -/
structure Event where
  type : EventType
  payload : Option Payload
deriving DecidableEq, Repr

/-! ## Reading a message -/

/-- The field `msg.stageN`. -/
def Message.stage (m : Message) : Stage → Option Payload
  | .stage1 => m.stage1
  | .stage2 => m.stage2
  | .stage3 => m.stage3

/-- The key `stageN` of a `loading` object. -/
def Loading.flag (l : Loading) : Stage → Option Bool
  | .stage1 => l.stage1
  | .stage2 => l.stage2
  | .stage3 => l.stage3

/-- The path `msg.loading.stageN`; `none` when `loading` or the key is absent. -/
def Message.loadingFlag (m : Message) (n : Stage) : Option Bool :=
  match m.loading with
  | none => none
  | some l => l.flag n

/-- Whether some `loading.stageN` of the message is `true` (the message is in flight). -/
def Message.inFlight (m : Message) : Bool :=
  m.loadingFlag .stage1 == some true || m.loadingFlag .stage2 == some true
    || m.loadingFlag .stage3 == some true

/-- The event type `stageN_start`. -/
def EventType.start : Stage → EventType
  | .stage1 => .stage1_start
  | .stage2 => .stage2_start
  | .stage3 => .stage3_start

/-- The event type `stageN_complete`. -/
def EventType.done : Stage → EventType
  | .stage1 => .stage1_complete
  | .stage2 => .stage2_complete
  | .stage3 => .stage3_complete

/-! ## State setters -/

/-- The call `setIsLoading(b)`. -/
def setIsLoading (b : Bool) (s : State) : State :=
  { s with isLoading := b }

/-- The call `setCurrentConversation(updater)` with a functional updater. -/
def setCurrentConversation
    (updater : Option Conversation → Except JsError (Option Conversation))
    (s : State) : Except JsError State :=
  match updater s.currentConversation with
  | .ok c => .ok { s with currentConversation := c }
  | .error e => .error e

/-- The synchronous part of `loadConversations()`: the request to
`api.listConversations` is issued; `setConversations` runs when it resolves. -/
def loadConversations (s : State) : State :=
  { s with apiCalls := s.apiCalls ++ [ApiCall.listConversations] }

/-- The resolution of `loadConversation(id)`: `setCurrentConversation(conv)`. -/
def loadConversation_resolved (conv : Conversation) (s : State) : State :=
  { s with currentConversation := some conv }

/-! ## `updateLastAssistant` (App.jsx 13-26) -/

/-- The spread `{ ...msg.loading }`: an absent `loading` spreads to no key. -/
def spreadLoading : Option Loading → Loading
  | none => { stage1 := none, stage2 := none, stage3 := none }
  | some l => l

/-- The arrow function `prev => ...` that `updateLastAssistant` hands to
`setCurrentConversation`.  With an empty list `messages[-1]` is `undefined`;
here `messages.length - 1` is `0` and the lookup is `none` all the same. -/
def updateLastAssistant_updater (updater : Message → Message) :
    Option Conversation → Option Conversation
  | none => none
  | some prev =>
    let messages := prev.messages
    let lastIndex := messages.length - 1
    match messages[lastIndex]? with
    | none => some prev
    | some last =>
      if last.role ≠ "assistant" then some prev
      else some { prev with messages := messages.set lastIndex (updater last) }

/-- The function `updateLastAssistant(updater)`. -/
def updateLastAssistant (updater : Message → Message) (s : State) : Except JsError State :=
  setCurrentConversation (fun prev => .ok (updateLastAssistant_updater updater prev)) s

/-! ## The `onEvent` callback (App.jsx 111-172) -/

/-- The updater of `case "stageN_start"`:
`msg => ({ ...msg, loading: { ...msg.loading, stageN: true } })`. -/
def startUpdater : Stage → Message → Message
  | .stage1 => fun msg => { msg with loading := some { spreadLoading msg.loading with stage1 := some true } }
  | .stage2 => fun msg => { msg with loading := some { spreadLoading msg.loading with stage2 := some true } }
  | .stage3 => fun msg => { msg with loading := some { spreadLoading msg.loading with stage3 := some true } }

/-- The updater of `case "stageN_complete"`:
`msg => ({ ...msg, stageN: payload, loading: { ...msg.loading, stageN: false } })`. -/
def completeUpdater (payload : Option Payload) : Stage → Message → Message
  | .stage1 => fun msg =>
      { msg with stage1 := payload, loading := some { spreadLoading msg.loading with stage1 := some false } }
  | .stage2 => fun msg =>
      { msg with stage2 := payload, loading := some { spreadLoading msg.loading with stage2 := some false } }
  | .stage3 => fun msg =>
      { msg with stage3 := payload, loading := some { spreadLoading msg.loading with stage3 := some false } }

/-- The callback `(type, payload) => { switch (type) ... }`. -/
def onEvent (s : State) (type : EventType) (payload : Option Payload) : Except JsError State :=
  match type with
  | .stage1_start => updateLastAssistant (startUpdater .stage1) s
  | .stage1_complete => updateLastAssistant (completeUpdater payload .stage1) s
  | .stage2_start => updateLastAssistant (startUpdater .stage2) s
  | .stage2_complete => updateLastAssistant (completeUpdater payload .stage2) s
  | .stage3_start => updateLastAssistant (startUpdater .stage3) s
  | .stage3_complete => updateLastAssistant (completeUpdater payload .stage3) s
  | .title_complete => .ok (loadConversations s)
  | .complete => .ok (loadConversations (setIsLoading false s))
  | .error => .ok (setIsLoading false s)

/-- The deliveries of a list of events, in order. -/
def applyEvents (s : State) : List Event → Except JsError State
  | [] => .ok s
  | e :: rest =>
    match onEvent s e.type e.payload with
    | .ok s' => applyEvents s' rest
    | .error err => .error err

/-! ## `handleSendMessage` (App.jsx 75-183) -/

/-- The guard `!currentConversationId`: `null` and the empty string are falsy. -/
def idIsFalsy : Option String → Bool
  | none => true
  | some id => id == ""

/-- The object `userMessage`; `createObjectURL` stands for `URL.createObjectURL`. -/
def userMessage (createObjectURL : String → String) (content : String)
    (image : Option ImageInput) : Message :=
  { role := "user"
    content := some content
    image := match image with
      | some img => some (createObjectURL img.file)
      | none => none
    stage1 := none, stage2 := none, stage3 := none, metadata := none, loading := none }

/-- The object `assistantMessage`. -/
def assistantMessage : Message :=
  { role := "assistant"
    content := none
    image := none
    stage1 := none
    stage2 := none
    stage3 := none
    metadata := none
    loading := some { stage1 := some false, stage2 := some false, stage3 := some false } }

/-- The updater `prev => ({ ...prev, messages: [...prev.messages, m] })`. -/
def appendMessage (m : Message) : Option Conversation → Except JsError (Option Conversation)
  | none => .error JsError.typeError
  | some prev => .ok (some { prev with messages := prev.messages ++ [m] })

/-- The updater `prev => ({ ...prev, messages: prev.messages.slice(0, -2) })`. -/
def removeOptimistic : Option Conversation → Except JsError (Option Conversation)
  | none => .error JsError.typeError
  | some prev => .ok (some { prev with messages := prev.messages.take (prev.messages.length - 2) })

/-- The `catch` branch of `handleSendMessage` (lines 174-182). -/
def handleSendMessage_catch (s : State) : Except JsError State :=
  match setCurrentConversation removeOptimistic s with
  | .ok s' => .ok (setIsLoading false s')
  | .error e => .error e

/-- The function `handleSendMessage` up to its `await`: the guard, the sending
indicator, the two optimistic appends and the call of the transport.  An
exception raised inside the `try` block enters the `catch` branch. -/
def handleSendMessage (createObjectURL : String → String) (s : State)
    (content : String) (image : Option ImageInput) : Except JsError State :=
  if idIsFalsy s.currentConversationId then .ok s
  else
    let s1 := setIsLoading true s
    match setCurrentConversation (appendMessage (userMessage createObjectURL content image)) s1 with
    | .error _ => handleSendMessage_catch s1
    | .ok s2 =>
      match setCurrentConversation (appendMessage assistantMessage) s2 with
      | .error _ => handleSendMessage_catch s2
      | .ok s3 =>
        .ok { s3 with apiCalls := s3.apiCalls ++
                [ApiCall.sendMessageStream (s.currentConversationId.getD "") content image] }

/-- A send whose transport rejects: the synchronous part of `handleSendMessage`,
the events delivered before the rejection, then the `catch` branch. -/
def failedSend (createObjectURL : String → String) (s : State) (content : String)
    (image : Option ImageInput) (events : List Event) : Except JsError State :=
  match handleSendMessage createObjectURL s content image with
  | .error e => .error e
  | .ok s1 =>
    match applyEvents s1 events with
    | .error e => .error e
    | .ok s2 => handleSendMessage_catch s2

/-! ## The steps of the store -/

/-- The handler `handleSelectConversation(id)`: `setCurrentConversationId(id)`. -/
def handleSelectConversation (id : String) (s : State) : State :=
  { s with currentConversationId := some id }

/-- What can happen to the store during sends: a call of `handleSendMessage`
(up to its `await`), the delivery of an event, the rejection of the transport. -/
inductive Action where
  | send (content : String) (image : Option ImageInput)
  | event (e : Event)
  | reject
deriving DecidableEq, Repr

/-- One step of the store. -/
def step (url : String → String) (s : State) : Action → Except JsError State
  | .send content image => handleSendMessage url s content image
  | .event e => onEvent s e.type e.payload
  | .reject => handleSendMessage_catch s

/-- The steps of a list of actions, in order. -/
def run (url : String → String) (s : State) : List Action → Except JsError State
  | [] => .ok s
  | a :: rest =>
    match step url s a with
    | .ok s' => run url s' rest
    | .error err => .error err

/-- No message of the resident conversation has a loading flag set. -/
def idle (s : State) : Bool :=
  match s.currentConversation with
  | none => true
  | some conv => conv.messages.all (fun m => !m.inFlight)

/-- Every `send` of the list is taken in a state where no loading flag is set. -/
def sendsWhenIdle (url : String → String) (s : State) : List Action → Bool
  | [] => true
  | a :: rest =>
    (match a with
      | .send _ _ => idle s
      | _ => true) &&
    (match step url s a with
      | .ok s' => sendsWhenIdle url s' rest
      | .error _ => true)

/-! ## Vocabulary of the statements -/

/-- What one delivered event does to the last assistant message. -/
def eventUpdater (e : Event) : Message → Message :=
  match e.type with
  | .stage1_start => startUpdater .stage1
  | .stage1_complete => completeUpdater e.payload .stage1
  | .stage2_start => startUpdater .stage2
  | .stage2_complete => completeUpdater e.payload .stage2
  | .stage3_start => startUpdater .stage3
  | .stage3_complete => completeUpdater e.payload .stage3
  | .title_complete => id
  | .complete => id
  | .error => id

/-- The sending indicator after one event. -/
def isLoadingAfter (t : EventType) (b : Bool) : Bool :=
  match t with
  | .complete => false
  | .error => false
  | _ => b

/-- The calls to `api` one event issues. -/
def callsOf (t : EventType) : List ApiCall :=
  match t with
  | .title_complete => [ApiCall.listConversations]
  | .complete => [ApiCall.listConversations]
  | _ => []

/-- The resident conversation after a list of events. -/
def conversationAfter (evs : List Event) (c : Option Conversation) : Option Conversation :=
  evs.foldl (fun c e => updateLastAssistant_updater (eventUpdater e) c) c

/-- The sending indicator after a list of events. -/
def isLoadingAfterAll (evs : List Event) (b : Bool) : Bool :=
  evs.foldl (fun b e => isLoadingAfter e.type b) b

/-- The last assistant message after a list of events. -/
def messageAfter (evs : List Event) (m : Message) : Message :=
  evs.foldl (fun m e => eventUpdater e m) m

/-- The list holds a `stageN_start` that no later `stageN_complete` follows. -/
def Pending (n : Stage) (evs : List Event) : Prop :=
  ∃ pre q post, evs = pre ++ (⟨EventType.start n, q⟩ : Event) :: post ∧
    ∀ e ∈ post, e.type ≠ EventType.done n

/-- Every message before the last has no loading flag set. -/
def QuietInit (s : State) : Prop :=
  ∀ conv, s.currentConversation = some conv → ∀ m ∈ conv.messages.dropLast, m.inFlight = false

/-! ## Sample data -/

/-- A user message as the server returns it. -/
def sampleUser : Message :=
  { role := "user", content := some "old", image := none, stage1 := none, stage2 := none,
    stage3 := none, metadata := none, loading := none }

/-- A completed assistant message as the server returns it (no `loading` key). -/
def sampleAnswer : Message :=
  { role := "assistant", content := none, image := none, stage1 := some ⟨"a1"⟩,
    stage2 := some ⟨"a2"⟩, stage3 := some ⟨"a3"⟩, metadata := none, loading := none }

/-- A state in which conversation `c1` is loaded and idle. -/
def sampleLoaded : State :=
  { conversations := [], currentConversationId := some "c1",
    currentConversation := some ⟨"c1", [sampleUser, sampleAnswer]⟩,
    isLoading := false, apiCalls := [] }

/-- A state in which a turn of conversation `c1` has just been sent. -/
def sampleSent : State :=
  { conversations := [], currentConversationId := some "c1",
    currentConversation := some ⟨"c1", [sampleUser, assistantMessage]⟩,
    isLoading := true, apiCalls := [] }

/-- A state whose resident conversation ends with a user message. -/
def sampleAfterUser : State :=
  { conversations := [], currentConversationId := some "c2",
    currentConversation := some ⟨"c2", [sampleAnswer, sampleUser]⟩,
    isLoading := true, apiCalls := [] }

/-! ## Auxiliary facts -/

theorem updater_nil (u : Message → Message) (cid : String) :
    updateLastAssistant_updater u (some ⟨cid, []⟩) = some ⟨cid, []⟩ := by
  simp [updateLastAssistant_updater]

theorem updater_concat (u : Message → Message) (cid : String) (init : List Message)
    (last : Message) :
    updateLastAssistant_updater u (some ⟨cid, init ++ [last]⟩) =
      if last.role ≠ "assistant" then some ⟨cid, init ++ [last]⟩
      else some ⟨cid, init ++ [u last]⟩ := by
  simp [updateLastAssistant_updater]

theorem updater_id (c : Option Conversation) : updateLastAssistant_updater id c = c := by
  rcases c with _ | ⟨cid, ms⟩
  · rfl
  · rcases List.eq_nil_or_concat ms with h | ⟨init, last, h⟩
    · subst h; exact updater_nil id cid
    · subst h
      have := updater_concat id cid init last
      simp only [List.concat_eq_append] at this ⊢
      rw [this]; simp

theorem eventUpdater_role (e : Event) (m : Message) : (eventUpdater e m).role = m.role := by
  rcases e with ⟨t, p⟩
  cases t <;> rfl

theorem onEvent_spec (s : State) (t : EventType) (p : Option Payload) :
    onEvent s t p = .ok
      { s with
        currentConversation := updateLastAssistant_updater (eventUpdater ⟨t, p⟩) s.currentConversation
        isLoading := isLoadingAfter t s.isLoading
        apiCalls := s.apiCalls ++ callsOf t } := by
  cases t <;>
    simp [onEvent, updateLastAssistant, setCurrentConversation, eventUpdater, isLoadingAfter,
      callsOf, updater_id, loadConversations, setIsLoading]

theorem applyEvents_spec (evs : List Event) (s : State) :
    ∃ s', applyEvents s evs = .ok s' ∧
      s'.currentConversation = conversationAfter evs s.currentConversation ∧
      s'.isLoading = isLoadingAfterAll evs s.isLoading ∧
      s'.conversations = s.conversations ∧
      s'.currentConversationId = s.currentConversationId := by
  induction evs generalizing s with
  | nil => exact ⟨s, rfl, rfl, rfl, rfl, rfl⟩
  | cons e rest ih =>
    obtain ⟨s', h1, h2, h3, h4, h5⟩ := ih
      { s with
        currentConversation := updateLastAssistant_updater (eventUpdater ⟨e.type, e.payload⟩) s.currentConversation
        isLoading := isLoadingAfter e.type s.isLoading
        apiCalls := s.apiCalls ++ callsOf e.type }
    refine ⟨s', ?_, ?_, ?_, ?_, ?_⟩
    · simp only [applyEvents, onEvent_spec]; exact h1
    · simpa [conversationAfter] using h2
    · simpa [isLoadingAfterAll] using h3
    · simpa using h4
    · simpa using h5

theorem messageAfter_role (evs : List Event) (m : Message) :
    (messageAfter evs m).role = m.role := by
  induction evs generalizing m with
  | nil => rfl
  | cons e rest ih =>
    have := ih (eventUpdater e m)
    simp only [messageAfter, List.foldl_cons] at this ⊢
    rw [this, eventUpdater_role]

theorem conversationAfter_concat (evs : List Event) (cid : String) (init : List Message)
    (last : Message) (h : last.role = "assistant") :
    conversationAfter evs (some ⟨cid, init ++ [last]⟩) =
      some ⟨cid, init ++ [messageAfter evs last]⟩ := by
  induction evs generalizing last with
  | nil => rfl
  | cons e rest ih =>
    have hr : (eventUpdater e last).role = "assistant" := by rw [eventUpdater_role, h]
    have := ih (eventUpdater e last) hr
    simp only [conversationAfter, messageAfter, List.foldl_cons] at this ⊢
    rw [updater_concat, if_neg (by simp [h])]
    exact this

theorem handleSendMessage_spec (url : String → String) (s : State) (conv : Conversation)
    (content : String) (image : Option ImageInput)
    (hid : idIsFalsy s.currentConversationId = false)
    (hconv : s.currentConversation = some conv) :
    handleSendMessage url s content image = .ok
      { s with
        currentConversation :=
          some { conv with messages := conv.messages ++ [userMessage url content image] ++ [assistantMessage] }
        isLoading := true
        apiCalls := s.apiCalls ++
          [ApiCall.sendMessageStream (s.currentConversationId.getD "") content image] } := by
  simp [handleSendMessage, hid, setCurrentConversation, setIsLoading, hconv, appendMessage]

theorem updater_guard (u : Message → Message) (c : Option Conversation)
    (h : c = none ∨ ∃ conv, c = some conv ∧
      (conv.messages = [] ∨ ∃ m, conv.messages.getLast? = some m ∧ m.role ≠ "assistant")) :
    updateLastAssistant_updater u c = c := by
  rcases h with h | ⟨⟨cid, ms⟩, h, hm⟩
  · subst h; rfl
  · subst h
    rcases hm with hm | ⟨m, hm, hr⟩
    · simp only at hm; subst hm; exact updater_nil u cid
    · obtain ⟨init, hi⟩ := List.getLast?_eq_some_iff.mp hm
      simp only at hi; subst hi
      rw [updater_concat, if_pos hr]

theorem startUpdater_frame (n : Stage) (m : Message) :
    (startUpdater n m).role = m.role ∧ (startUpdater n m).content = m.content ∧
      (startUpdater n m).image = m.image ∧ (startUpdater n m).metadata = m.metadata ∧
      (∀ k, (startUpdater n m).stage k = m.stage k) ∧
      (startUpdater n m).loadingFlag n = some true ∧
      (∀ k, k ≠ n → (startUpdater n m).loadingFlag k = m.loadingFlag k) := by
  refine ⟨by cases n <;> rfl, by cases n <;> rfl, by cases n <;> rfl, by cases n <;> rfl,
    fun k => by cases n <;> cases k <;> rfl, by cases n <;> rfl, fun k hk => ?_⟩
  rcases m with ⟨r, c, i, s1, s2, s3, md, _ | l⟩ <;> cases n <;> cases k <;>
    first | exact absurd rfl hk | rfl

theorem completeUpdater_frame (p : Option Payload) (n : Stage) (m : Message) :
    (completeUpdater p n m).role = m.role ∧ (completeUpdater p n m).content = m.content ∧
      (completeUpdater p n m).image = m.image ∧ (completeUpdater p n m).metadata = m.metadata ∧
      (completeUpdater p n m).stage n = p ∧
      (∀ k, k ≠ n → (completeUpdater p n m).stage k = m.stage k) ∧
      (completeUpdater p n m).loadingFlag n = some false ∧
      (∀ k, k ≠ n → (completeUpdater p n m).loadingFlag k = m.loadingFlag k) := by
  refine ⟨by cases n <;> rfl, by cases n <;> rfl, by cases n <;> rfl, by cases n <;> rfl,
    by cases n <;> rfl, fun k hk => by cases n <;> cases k <;> first | exact absurd rfl hk | rfl,
    by cases n <;> rfl, fun k hk => ?_⟩
  rcases m with ⟨r, c, i, s1, s2, s3, md, _ | l⟩ <;> cases n <;> cases k <;>
    first | exact absurd rfl hk | rfl

theorem updateLastAssistant_last (u : Message → Message) (s : State) (conv : Conversation)
    (last : Message) (hconv : s.currentConversation = some conv)
    (hlast : conv.messages.getLast? = some last) (hrole : last.role = "assistant") :
    ∃ conv', updateLastAssistant u s = .ok { s with currentConversation := some conv' } ∧
      conv'.id = conv.id ∧
      conv'.messages.length = conv.messages.length ∧
      conv'.messages.dropLast = conv.messages.dropLast ∧
      conv'.messages.getLast? = some (u last) := by
  obtain ⟨init, hi⟩ := List.getLast?_eq_some_iff.mp hlast
  rcases conv with ⟨cid, ms⟩
  simp only at hi; subst hi
  refine ⟨⟨cid, init ++ [u last]⟩, ?_, rfl, by simp, by simp, by simp⟩
  simp only [updateLastAssistant, setCurrentConversation, hconv, updater_concat]
  rw [if_neg (by simp [hrole])]

theorem eventUpdater_flag (e : Event) (m : Message) (n : Stage) :
    (eventUpdater e m).loadingFlag n =
      if e.type = EventType.start n then some true
      else if e.type = EventType.done n then some false
      else m.loadingFlag n := by
  rcases e with ⟨t, p⟩
  rcases m with ⟨r, c, i, s1, s2, s3, md, _ | l⟩ <;> cases t <;> cases n <;> rfl

theorem eventUpdater_stage (e : Event) (m : Message) (n : Stage) :
    (eventUpdater e m).stage n =
      if e.type = EventType.done n then e.payload else m.stage n := by
  rcases e with ⟨t, p⟩
  cases t <;> cases n <;> rfl

theorem messageAfter_append (xs ys : List Event) (m : Message) :
    messageAfter (xs ++ ys) m = messageAfter ys (messageAfter xs m) := by
  simp [messageAfter, List.foldl_append]

theorem start_ne_done (n k : Stage) : EventType.start n ≠ EventType.done k := by
  cases n <;> cases k <;> decide

theorem pending_nil (n : Stage) : ¬ Pending n [] := by
  rintro ⟨pre, q, post, h, -⟩
  cases pre <;> simp at h

theorem pending_cons (n : Stage) (e : Event) (rest : List Event) :
    Pending n (e :: rest) ↔
      (e.type = EventType.start n ∧ ∀ x ∈ rest, x.type ≠ EventType.done n) ∨ Pending n rest := by
  constructor
  · rintro ⟨pre, q, post, h, hp⟩
    rcases pre with _ | ⟨a, pre⟩
    · simp only [List.nil_append, List.cons.injEq] at h
      obtain ⟨h1, h2⟩ := h
      subst h1 h2
      exact Or.inl ⟨rfl, hp⟩
    · simp only [List.cons_append, List.cons.injEq] at h
      exact Or.inr ⟨pre, q, post, h.2, hp⟩
  · rintro (⟨h1, h2⟩ | ⟨pre, q, post, h, hp⟩)
    · refine ⟨[], e.payload, rest, ?_, h2⟩
      rcases e with ⟨t, p⟩
      simp only at h1
      subst h1
      rfl
    · exact ⟨e :: pre, q, post, by simp [h], hp⟩

theorem messageAfter_flag (n : Stage) (evs : List Event) (m : Message) :
    (messageAfter evs m).loadingFlag n = some true ↔
      Pending n evs ∨ (m.loadingFlag n = some true ∧ ∀ e ∈ evs, e.type ≠ EventType.done n) := by
  induction evs generalizing m with
  | nil => simp [messageAfter, pending_nil]
  | cons e rest ih =>
    have hstep : messageAfter (e :: rest) m = messageAfter rest (eventUpdater e m) := rfl
    rw [hstep, ih, eventUpdater_flag, pending_cons]
    by_cases h1 : e.type = EventType.start n
    · have h2 : e.type ≠ EventType.done n := by rw [h1]; exact start_ne_done n n
      simp only [h1, if_true, true_and, List.mem_cons, forall_eq_or_imp, ne_eq]
      rw [← h1]
      simp only [h2, not_false_eq_true, true_and]
      tauto
    · by_cases h2 : e.type = EventType.done n
      · simp [h1, h2]
        tauto
      · simp [h1, h2]

theorem messageAfter_flag_value (n : Stage) (evs : List Event) (m : Message)
    (h : m.loadingFlag n = some true ∨ m.loadingFlag n = some false) :
    (messageAfter evs m).loadingFlag n = some true ∨
      (messageAfter evs m).loadingFlag n = some false := by
  induction evs generalizing m with
  | nil => exact h
  | cons e rest ih =>
    have hstep : messageAfter (e :: rest) m = messageAfter rest (eventUpdater e m) := rfl
    rw [hstep]
    apply ih
    rw [eventUpdater_flag]
    split_ifs
    · exact Or.inl rfl
    · exact Or.inr rfl
    · exact h

theorem messageAfter_stage_keep (n : Stage) (evs : List Event) (m : Message)
    (h : ∀ e ∈ evs, e.type ≠ EventType.done n) :
    (messageAfter evs m).stage n = m.stage n := by
  induction evs generalizing m with
  | nil => rfl
  | cons e rest ih =>
    have hstep : messageAfter (e :: rest) m = messageAfter rest (eventUpdater e m) := rfl
    rw [hstep, ih _ (fun x hx => h x (List.mem_cons_of_mem _ hx)), eventUpdater_stage,
      if_neg (h e (List.mem_cons_self _ _))]

theorem messageAfter_stage_set (n : Stage) (pre post : List Event) (p : Option Payload)
    (m : Message) (h : ∀ e ∈ post, e.type ≠ EventType.done n) :
    (messageAfter (pre ++ (⟨EventType.done n, p⟩ : Event) :: post) m).stage n = p := by
  have hstep : ∀ m', messageAfter ((⟨EventType.done n, p⟩ : Event) :: post) m' =
      messageAfter post (eventUpdater ⟨EventType.done n, p⟩ m') := fun _ => rfl
  rw [messageAfter_append, hstep, messageAfter_stage_keep n post _ h, eventUpdater_stage]
  simp

theorem messageAfter_stage_nonnull (n : Stage) (evs : List Event) (m : Message)
    (hp : ∀ e ∈ evs, e.type = EventType.done n → e.payload ≠ none)
    (hm : m.stage n ≠ none) :
    (messageAfter evs m).stage n ≠ none := by
  induction evs generalizing m with
  | nil => exact hm
  | cons e rest ih =>
    have hstep : messageAfter (e :: rest) m = messageAfter rest (eventUpdater e m) := rfl
    rw [hstep]
    apply ih _ (fun x hx => hp x (List.mem_cons_of_mem _ hx))
    rw [eventUpdater_stage]
    split_ifs with h
    · exact hp e (List.mem_cons_self _ _) h
    · exact hm

theorem applyEvents_last (evs : List Event) (s : State) (conv : Conversation) (last : Message)
    (hconv : s.currentConversation = some conv)
    (hlast : conv.messages.getLast? = some last) (hrole : last.role = "assistant") :
    ∃ s' conv', applyEvents s evs = .ok s' ∧
      s'.currentConversation = some conv' ∧
      conv'.id = conv.id ∧
      conv'.messages.dropLast = conv.messages.dropLast ∧
      conv'.messages.getLast? = some (messageAfter evs last) ∧
      s'.isLoading = isLoadingAfterAll evs s.isLoading := by
  obtain ⟨init, hi⟩ := List.getLast?_eq_some_iff.mp hlast
  rcases conv with ⟨cid, ms⟩
  simp only at hi; subst hi
  obtain ⟨s', h1, h2, h3, -, -⟩ := applyEvents_spec evs s
  rw [hconv, conversationAfter_concat evs cid init last hrole] at h2
  exact ⟨s', _, h1, h2, rfl, by simp, by simp, h3⟩

theorem updater_frame (u : Message → Message) (c : Conversation) :
    ∃ conv', updateLastAssistant_updater u (some c) = some conv' ∧
      conv'.id = c.id ∧
      conv'.messages.length = c.messages.length ∧
      conv'.messages.dropLast = c.messages.dropLast := by
  rcases c with ⟨cid, ms⟩
  rcases List.eq_nil_or_concat ms with h | ⟨init, last, h⟩
  · subst h; exact ⟨_, updater_nil u cid, rfl, rfl, rfl⟩
  · subst h
    simp only [List.concat_eq_append]
    by_cases hr : last.role ≠ "assistant"
    · exact ⟨_, by rw [updater_concat, if_pos hr], rfl, rfl, rfl⟩
    · exact ⟨_, by rw [updater_concat, if_neg hr], rfl, by simp, by simp⟩

theorem idle_all (s : State) (conv : Conversation) (hi : idle s = true)
    (hc : s.currentConversation = some conv) : ∀ m ∈ conv.messages, m.inFlight = false := by
  intro m hm
  simp only [idle, hc, List.all_eq_true, Bool.not_eq_true'] at hi
  exact hi m hm

theorem quietInit_of_idle (s : State) (hi : idle s = true) : QuietInit s := by
  intro conv hc m hm
  exact idle_all s conv hi hc m (List.dropLast_subset _ hm)

theorem quietInit_send (url : String → String) (s s' : State) (content : String)
    (image : Option ImageInput) (hi : idle s = true)
    (h : handleSendMessage url s content image = .ok s') : QuietInit s' := by
  by_cases hid : idIsFalsy s.currentConversationId = true
  · simp only [handleSendMessage, hid, if_true, Except.ok.injEq] at h
    subst h
    exact quietInit_of_idle s hi
  · have hid' : idIsFalsy s.currentConversationId = false := by simpa using hid
    rcases hc : s.currentConversation with _ | conv
    · simp [handleSendMessage, hid', setCurrentConversation, setIsLoading, hc, appendMessage,
        handleSendMessage_catch, removeOptimistic] at h
    · rw [handleSendMessage_spec url s conv content image hid' hc] at h
      simp only [Except.ok.injEq] at h
      subst h
      intro conv' hc' m hm
      simp only [Option.some.injEq] at hc'
      subst hc'
      simp only [List.dropLast_concat, List.mem_append, List.mem_singleton] at hm
      rcases hm with hm | hm
      · exact idle_all s conv hi hc m hm
      · subst hm; rfl

theorem quietInit_event (s s' : State) (e : Event) (hq : QuietInit s)
    (h : onEvent s e.type e.payload = .ok s') : QuietInit s' := by
  rw [onEvent_spec] at h
  simp only [Except.ok.injEq] at h
  subst h
  intro conv' hc' m hm
  simp only at hc'
  rcases hc : s.currentConversation with _ | conv
  · rw [hc] at hc'; simp [updateLastAssistant_updater] at hc'
  · obtain ⟨c2, h1, -, -, h4⟩ := updater_frame (eventUpdater ⟨e.type, e.payload⟩) conv
    rw [hc, h1] at hc'
    simp only [Option.some.injEq] at hc'
    subst hc'
    rw [h4] at hm
    exact hq conv hc m hm

theorem quietInit_reject (s s' : State) (hq : QuietInit s)
    (h : handleSendMessage_catch s = .ok s') : QuietInit s' := by
  rcases hc : s.currentConversation with _ | conv
  · simp [handleSendMessage_catch, setCurrentConversation, hc, removeOptimistic] at h
  · simp only [handleSendMessage_catch, setCurrentConversation, hc, removeOptimistic,
      setIsLoading, Except.ok.injEq] at h
    subst h
    intro conv' hc' m hm
    simp only [Option.some.injEq] at hc'
    subst hc'
    apply hq conv hc m
    rw [List.dropLast_eq_take]
    exact List.take_subset_take_left _ (by omega) (List.dropLast_subset _ hm)

theorem quietInit_run (url : String → String) (acts : List Action) (s s' : State)
    (hq : QuietInit s) (hs : sendsWhenIdle url s acts = true)
    (h : run url s acts = .ok s') : QuietInit s' := by
  induction acts generalizing s with
  | nil =>
    simp only [run, Except.ok.injEq] at h
    subst h; exact hq
  | cons a rest ih =>
    simp only [run] at h
    simp only [sendsWhenIdle, Bool.and_eq_true] at hs
    rcases hstep : step url s a with err | s1
    · rw [hstep] at h; simp at h
    · rw [hstep] at h hs
      refine ih s1 ?_ hs.2 h
      cases a with
      | send content image => exact quietInit_send url s s1 content image hs.1 hstep
      | event e => exact quietInit_event s s1 e hq hstep
      | reject => exact quietInit_reject s s1 hq hstep

theorem step_loaded (url : String → String) (s : State) (a : Action) (conv : Conversation)
    (hc : s.currentConversation = some conv) :
    ∃ s' conv', step url s a = .ok s' ∧ s'.currentConversation = some conv' := by
  cases a with
  | send content image =>
    by_cases hid : idIsFalsy s.currentConversationId = true
    · exact ⟨s, conv, by simp [step, handleSendMessage, hid], hc⟩
    · have hid' : idIsFalsy s.currentConversationId = false := by simpa using hid
      exact ⟨_, _, handleSendMessage_spec url s conv content image hid' hc, rfl⟩
  | event e =>
    obtain ⟨c2, h1, -⟩ := updater_frame (eventUpdater ⟨e.type, e.payload⟩) conv
    exact ⟨_, c2, onEvent_spec s e.type e.payload, by simp only [hc, h1]⟩
  | reject =>
    refine ⟨setIsLoading false
      { s with currentConversation := some ⟨conv.id, conv.messages.take (conv.messages.length - 2)⟩ },
      _, ?_, rfl⟩
    simp only [step, handleSendMessage_catch, setCurrentConversation, hc, removeOptimistic]

theorem run_loaded (url : String → String) (acts : List Action) (s : State)
    (conv : Conversation) (hc : s.currentConversation = some conv) :
    ∃ s' conv', run url s acts = .ok s' ∧ s'.currentConversation = some conv' := by
  induction acts generalizing s conv with
  | nil => exact ⟨s, conv, rfl, hc⟩
  | cons a rest ih =>
    obtain ⟨s1, c1, h1, h2⟩ := step_loaded url s a conv hc
    obtain ⟨s2, c2, h3, h4⟩ := ih s1 c1 h2
    exact ⟨s2, c2, by simp only [run, h1, h3], h4⟩

theorem conversationAfter_frame (evs : List Event) (c : Conversation) :
    ∃ conv', conversationAfter evs (some c) = some conv' ∧
      conv'.id = c.id ∧
      conv'.messages.length = c.messages.length ∧
      conv'.messages.dropLast = c.messages.dropLast := by
  induction evs generalizing c with
  | nil => exact ⟨c, rfl, rfl, rfl, rfl⟩
  | cons e rest ih =>
    obtain ⟨c1, h1, h2, h3, h4⟩ := updater_frame (eventUpdater e) c
    obtain ⟨c2, g1, g2, g3, g4⟩ := ih c1
    refine ⟨c2, ?_, g2.trans h2, g3.trans h3, g4.trans h4⟩
    simp only [conversationAfter, List.foldl_cons, h1] at g1 ⊢
    exact g1

theorem conversationAfter_guard (evs : List Event) (c : Option Conversation)
    (h : c = none ∨ ∃ conv, c = some conv ∧
      (conv.messages = [] ∨ ∃ m, conv.messages.getLast? = some m ∧ m.role ≠ "assistant")) :
    conversationAfter evs c = c := by
  induction evs with
  | nil => rfl
  | cons e rest ih =>
    simp only [conversationAfter, List.foldl_cons, updater_guard (eventUpdater e) c h] at ih ⊢
    exact ih

theorem conversationAfter_nonstage (evs : List Event) (c : Option Conversation)
    (h : ∀ e ∈ evs, e.type = .title_complete ∨ e.type = .complete ∨ e.type = .error) :
    conversationAfter evs c = c := by
  induction evs with
  | nil => rfl
  | cons e rest ih =>
    have hid : eventUpdater e = id := by
      rcases h e (List.mem_cons_self _ _) with he | he | he <;> simp only [eventUpdater, he]
    have := ih (fun x hx => h x (List.mem_cons_of_mem _ hx))
    simp only [conversationAfter, List.foldl_cons, hid, updater_id] at this ⊢
    exact this

/-! ## The claims -/

/-- C1 (rollback exactness).  From a state with a selected id and a resident
conversation, the two optimistic appends of `handleSendMessage`, any events
delivered afterwards, and then the `catch` branch succeed and leave a resident
conversation equal to the one before the send (same messages, same length) and
a sending indicator that is `false`. -/
theorem C1_rollback_exact (url : String → String) (s : State) (conv : Conversation)
    (content : String) (image : Option ImageInput) (events : List Event)
    (hid : idIsFalsy s.currentConversationId = false)
    (hconv : s.currentConversation = some conv) :
    ∃ s' conv', failedSend url s content image events = .ok s' ∧
      s'.currentConversation = some conv' ∧
      conv' = conv ∧
      conv'.messages = conv.messages ∧
      conv'.messages.length = conv.messages.length ∧
      s'.isLoading = false := by
  obtain ⟨s2, h1, h2, -, -, -⟩ := applyEvents_spec events
      { s with
        currentConversation :=
          some { conv with messages := conv.messages ++ [userMessage url content image] ++ [assistantMessage] }
        isLoading := true
        apiCalls := s.apiCalls ++
          [ApiCall.sendMessageStream (s.currentConversationId.getD "") content image] }
  simp only at h2
  rw [conversationAfter_concat _ _ _ _ rfl] at h2
  refine ⟨{ s2 with currentConversation := some conv, isLoading := false }, conv, ?_, rfl, rfl, rfl, rfl, rfl⟩
  simp only [failedSend, handleSendMessage_spec url s conv content image hid hconv, h1,
    handleSendMessage_catch, setCurrentConversation, h2, removeOptimistic, setIsLoading]
  simp

/-- Witness of C1 on the loaded conversation `c1`, an image, and four events. -/
theorem C1_rollback_exact_witness :
    idIsFalsy sampleLoaded.currentConversationId = false ∧
    sampleLoaded.currentConversation = some ⟨"c1", [sampleUser, sampleAnswer]⟩ ∧
    ∃ s' conv', failedSend (fun f => "blob:" ++ f) sampleLoaded "hi" (some ⟨"a.png"⟩)
        [⟨.stage1_start, none⟩, ⟨.stage1_complete, some ⟨"x"⟩⟩, ⟨.stage2_start, none⟩,
          ⟨.title_complete, none⟩] = .ok s' ∧
      s'.currentConversation = some conv' ∧
      conv' = ⟨"c1", [sampleUser, sampleAnswer]⟩ ∧
      conv'.messages = [sampleUser, sampleAnswer] ∧
      conv'.messages.length = 2 ∧
      s'.isLoading = false :=
  ⟨rfl, rfl,
    C1_rollback_exact (fun f => "blob:" ++ f) sampleLoaded ⟨"c1", [sampleUser, sampleAnswer]⟩
      "hi" (some ⟨"a.png"⟩)
      [⟨.stage1_start, none⟩, ⟨.stage1_complete, some ⟨"x"⟩⟩, ⟨.stage2_start, none⟩,
        ⟨.title_complete, none⟩]
      rfl rfl⟩

/-- C2 (atomic optimistic pair).  From a state with a selected id and a resident
conversation with messages `ms`, the synchronous part of `handleSendMessage`
succeeds and the messages are `ms` followed by exactly a user message (role
`user`, the content, the preview reference of the image or `null`) and an
assistant message with every stage result and the metadata `null` and every
loading flag `false`; the first `|ms|` elements are unchanged. -/
theorem C2_optimistic_pair (url : String → String) (s : State) (conv : Conversation)
    (content : String) (image : Option ImageInput)
    (hid : idIsFalsy s.currentConversationId = false)
    (hconv : s.currentConversation = some conv) :
    ∃ s' conv' u a, handleSendMessage url s content image = .ok s' ∧
      s'.currentConversation = some conv' ∧
      conv'.messages = conv.messages ++ [u, a] ∧
      conv'.messages.take conv.messages.length = conv.messages ∧
      conv'.messages.length = conv.messages.length + 2 ∧
      u.role = "user" ∧ u.content = some content ∧
      u.image = image.map (fun img => url img.file) ∧
      a.role = "assistant" ∧
      a.stage1 = none ∧ a.stage2 = none ∧ a.stage3 = none ∧ a.metadata = none ∧
      a.loadingFlag .stage1 = some false ∧ a.loadingFlag .stage2 = some false ∧
      a.loadingFlag .stage3 = some false := by
  refine ⟨_, _, userMessage url content image, assistantMessage,
    handleSendMessage_spec url s conv content image hid hconv, rfl, ?_, ?_, ?_, rfl, rfl, ?_,
    rfl, rfl, rfl, rfl, rfl, rfl, rfl, rfl⟩
  · simp
  · simp
  · simp
  · cases image <;> rfl

/-- Witness of C2 on the loaded conversation `c1` and an image. -/
theorem C2_optimistic_pair_witness :
    idIsFalsy sampleLoaded.currentConversationId = false ∧
    sampleLoaded.currentConversation = some ⟨"c1", [sampleUser, sampleAnswer]⟩ ∧
    ∃ s' conv' u a,
      handleSendMessage (fun f => "blob:" ++ f) sampleLoaded "hi" (some ⟨"a.png"⟩) = .ok s' ∧
      s'.currentConversation = some conv' ∧
      conv'.messages = [sampleUser, sampleAnswer] ++ [u, a] ∧
      conv'.messages.take 2 = [sampleUser, sampleAnswer] ∧
      conv'.messages.length = 2 + 2 ∧
      u.role = "user" ∧ u.content = some "hi" ∧
      u.image = (some (⟨"a.png"⟩ : ImageInput)).map (fun img => "blob:" ++ img.file) ∧
      a.role = "assistant" ∧
      a.stage1 = none ∧ a.stage2 = none ∧ a.stage3 = none ∧ a.metadata = none ∧
      a.loadingFlag .stage1 = some false ∧ a.loadingFlag .stage2 = some false ∧
      a.loadingFlag .stage3 = some false :=
  ⟨rfl, rfl,
    C2_optimistic_pair (fun f => "blob:" ++ f) sampleLoaded ⟨"c1", [sampleUser, sampleAnswer]⟩
      "hi" (some ⟨"a.png"⟩) rfl rfl⟩

/-- C3 (reconciler guard).  When the resident conversation is `null`, or has no
message, or its last message does not have role `assistant`, then
`updateLastAssistant` with any updater, and so each of the six stage events with
any payload, returns without failing and leaves the state, the resident
conversation included, as it was. -/
theorem C3_reconciler_guard (s : State) (n : Stage) (p : Option Payload)
    (h : s.currentConversation = none ∨ ∃ conv, s.currentConversation = some conv ∧
      (conv.messages = [] ∨ ∃ m, conv.messages.getLast? = some m ∧ m.role ≠ "assistant")) :
    (∀ u : Message → Message, updateLastAssistant u s = .ok s) ∧
      onEvent s (EventType.start n) p = .ok s ∧
      onEvent s (EventType.done n) p = .ok s := by
  have key : ∀ u : Message → Message, updateLastAssistant u s = .ok s := by
    intro u
    simp [updateLastAssistant, setCurrentConversation, updater_guard u _ h]
  refine ⟨key, ?_, ?_⟩ <;> cases n <;> exact key _

/-- Witness of C3 on a conversation whose last message is a user message. -/
theorem C3_reconciler_guard_witness :
    (sampleAfterUser.currentConversation = none ∨
      ∃ conv, sampleAfterUser.currentConversation = some conv ∧
        (conv.messages = [] ∨ ∃ m, conv.messages.getLast? = some m ∧ m.role ≠ "assistant")) ∧
    (∀ u : Message → Message, updateLastAssistant u sampleAfterUser = .ok sampleAfterUser) ∧
    onEvent sampleAfterUser (EventType.start .stage2) (some ⟨"x"⟩) = .ok sampleAfterUser ∧
    onEvent sampleAfterUser (EventType.done .stage2) (some ⟨"x"⟩) = .ok sampleAfterUser :=
  ⟨Or.inr ⟨_, rfl, Or.inr ⟨sampleUser, rfl, by decide⟩⟩,
    C3_reconciler_guard sampleAfterUser .stage2 (some ⟨"x"⟩)
      (Or.inr ⟨_, rfl, Or.inr ⟨sampleUser, rfl, by decide⟩⟩)⟩

/-- C4 (routing table and frame).  When the last message of the resident
conversation is an assistant message, `stageN_start` succeeds and yields a
transcript of the same length whose messages except the last are unchanged and
whose last message has `loading.stageN = true` and is otherwise as before;
`stageN_complete(p)` does the same with `stageN = p` and `loading.stageN = false`,
the other stage results, the other loading flags, the metadata and the role
being unchanged.  Nothing else in the state changes. -/
theorem C4_routing_frame (s : State) (conv : Conversation) (last : Message) (n : Stage)
    (p : Option Payload)
    (hconv : s.currentConversation = some conv)
    (hlast : conv.messages.getLast? = some last)
    (hrole : last.role = "assistant") :
    (∃ conv' last', onEvent s (EventType.start n) p = .ok { s with currentConversation := some conv' } ∧
        conv'.id = conv.id ∧
        conv'.messages.length = conv.messages.length ∧
        conv'.messages.dropLast = conv.messages.dropLast ∧
        conv'.messages.getLast? = some last' ∧
        last'.role = last.role ∧ last'.content = last.content ∧ last'.image = last.image ∧
        last'.metadata = last.metadata ∧
        (∀ k, last'.stage k = last.stage k) ∧
        last'.loadingFlag n = some true ∧
        (∀ k, k ≠ n → last'.loadingFlag k = last.loadingFlag k)) ∧
    (∃ conv' last', onEvent s (EventType.done n) p = .ok { s with currentConversation := some conv' } ∧
        conv'.id = conv.id ∧
        conv'.messages.length = conv.messages.length ∧
        conv'.messages.dropLast = conv.messages.dropLast ∧
        conv'.messages.getLast? = some last' ∧
        last'.role = last.role ∧ last'.content = last.content ∧ last'.image = last.image ∧
        last'.metadata = last.metadata ∧
        last'.stage n = p ∧
        (∀ k, k ≠ n → last'.stage k = last.stage k) ∧
        last'.loadingFlag n = some false ∧
        (∀ k, k ≠ n → last'.loadingFlag k = last.loadingFlag k)) := by
  constructor
  · obtain ⟨conv', h1, h2, h3, h4, h5⟩ :=
      updateLastAssistant_last (startUpdater n) s conv last hconv hlast hrole
    obtain ⟨f1, f2, f3, f4, f5, f6, f7⟩ := startUpdater_frame n last
    refine ⟨conv', startUpdater n last, ?_, h2, h3, h4, h5, f1, f2, f3, f4, f5, f6, f7⟩
    cases n <;> exact h1
  · obtain ⟨conv', h1, h2, h3, h4, h5⟩ :=
      updateLastAssistant_last (completeUpdater p n) s conv last hconv hlast hrole
    obtain ⟨f1, f2, f3, f4, f5, f6, f7, f8⟩ := completeUpdater_frame p n last
    refine ⟨conv', completeUpdater p n last, ?_, h2, h3, h4, h5, f1, f2, f3, f4, f5, f6, f7, f8⟩
    cases n <;> exact h1

/-- Witness of C4 on stage 2 of a fresh placeholder. -/
theorem C4_routing_frame_witness :
    sampleSent.currentConversation = some ⟨"c1", [sampleUser, assistantMessage]⟩ ∧
    (∃ conv' last',
        onEvent sampleSent (EventType.start .stage2) (some ⟨"x"⟩) =
          .ok { sampleSent with currentConversation := some conv' } ∧
        conv'.id = "c1" ∧
        conv'.messages.length = 2 ∧
        conv'.messages.dropLast = [sampleUser] ∧
        conv'.messages.getLast? = some last' ∧
        last'.role = "assistant" ∧ last'.content = none ∧ last'.image = none ∧
        last'.metadata = none ∧
        (∀ k, last'.stage k = assistantMessage.stage k) ∧
        last'.loadingFlag .stage2 = some true ∧
        (∀ k, k ≠ Stage.stage2 → last'.loadingFlag k = assistantMessage.loadingFlag k)) ∧
    (∃ conv' last',
        onEvent sampleSent (EventType.done .stage2) (some ⟨"x"⟩) =
          .ok { sampleSent with currentConversation := some conv' } ∧
        conv'.id = "c1" ∧
        conv'.messages.length = 2 ∧
        conv'.messages.dropLast = [sampleUser] ∧
        conv'.messages.getLast? = some last' ∧
        last'.role = "assistant" ∧ last'.content = none ∧ last'.image = none ∧
        last'.metadata = none ∧
        last'.stage .stage2 = some ⟨"x"⟩ ∧
        (∀ k, k ≠ Stage.stage2 → last'.stage k = assistantMessage.stage k) ∧
        last'.loadingFlag .stage2 = some false ∧
        (∀ k, k ≠ Stage.stage2 → last'.loadingFlag k = assistantMessage.loadingFlag k)) :=
  ⟨rfl, C4_routing_frame sampleSent ⟨"c1", [sampleUser, assistantMessage]⟩ assistantMessage
    .stage2 (some ⟨"x"⟩) rfl rfl rfl⟩

/-- C5 fails as stated: a turn is sent in `c1`, the resident conversation is
replaced by the loaded conversation `c2`, whose last message is a completed
assistant message, and a late `stage1_complete` of the first turn overwrites
`stage1` of that message. -/
theorem C5_counterexample :
    ∃ sA s' conv',
      handleSendMessage (fun f => "blob:" ++ f) sampleLoaded "hi" none = .ok sA ∧
      onEvent
        (loadConversation_resolved ⟨"c2", [sampleUser, sampleAnswer]⟩
          (handleSelectConversation "c2" sA))
        .stage1_complete (some ⟨"late"⟩) = .ok s' ∧
      s'.currentConversation = some conv' ∧
      conv'.messages ≠ [sampleUser, sampleAnswer] ∧
      conv'.messages = [sampleUser, { sampleAnswer with
        stage1 := some ⟨"late"⟩
        loading := some { stage1 := some false, stage2 := none, stage3 := none } }] :=
  ⟨_, _, _, rfl, rfl, rfl, by decide, rfl⟩

/-- C5, amended (stale events).  After the resident conversation has been
replaced by a loaded conversation `B`, every list of late events is applied
without failure, and after the last of them the resident conversation keeps
the id and the length of `B` and every message of `B` except the last; its
messages equal those of `B` as loaded whenever `B` has no message, or the last
message of `B` is not an assistant message, or none of the events delivered
since the replacement is a stage event (each is `title_complete`, `complete`
or `error`). -/
theorem C5_stale_event_frame (s : State) (B : Conversation) (evs : List Event) :
    ∃ s' conv', applyEvents (loadConversation_resolved B s) evs = .ok s' ∧
      s'.currentConversation = some conv' ∧
      conv'.id = B.id ∧
      conv'.messages.length = B.messages.length ∧
      conv'.messages.dropLast = B.messages.dropLast ∧
      ((B.messages = [] ∨ (∃ m, B.messages.getLast? = some m ∧ m.role ≠ "assistant") ∨
          (∀ e ∈ evs, e.type = .title_complete ∨ e.type = .complete ∨ e.type = .error)) →
        conv'.messages = B.messages) := by
  obtain ⟨s', h1, h2, -, -, -⟩ := applyEvents_spec evs (loadConversation_resolved B s)
  obtain ⟨conv', f1, f2, f3, f4⟩ := conversationAfter_frame evs B
  have hres : s'.currentConversation = some conv' := by
    rw [h2]; simpa [loadConversation_resolved] using f1
  refine ⟨s', conv', h1, hres, f2, f3, f4, ?_⟩
  intro hg
  have hsame : conversationAfter evs (some B) = some B := by
    rcases hg with hg | hg | hg
    · exact conversationAfter_guard evs _ (Or.inr ⟨B, rfl, Or.inl hg⟩)
    · exact conversationAfter_guard evs _ (Or.inr ⟨B, rfl, Or.inr hg⟩)
    · exact conversationAfter_nonstage evs _ hg
  rw [hsame] at f1
  cases f1
  rfl

/-- Witness of the amended C5: three late events, one of them a stage event,
delivered after a conversation that ends with a user message was loaded. -/
theorem C5_stale_event_frame_witness :
    ∃ s' conv',
      applyEvents (loadConversation_resolved ⟨"c2", [sampleAnswer, sampleUser]⟩ sampleSent)
        [⟨.stage1_complete, some ⟨"late"⟩⟩, ⟨.stage2_start, none⟩, ⟨.complete, none⟩] = .ok s' ∧
      s'.currentConversation = some conv' ∧
      conv'.id = "c2" ∧
      conv'.messages.length = 2 ∧
      conv'.messages.dropLast = [sampleAnswer] ∧
      (([sampleAnswer, sampleUser] = [] ∨
          (∃ m, [sampleAnswer, sampleUser].getLast? = some m ∧ m.role ≠ "assistant") ∨
          (∀ e ∈ [(⟨.stage1_complete, some ⟨"late"⟩⟩ : Event), ⟨.stage2_start, none⟩,
              ⟨.complete, none⟩],
            e.type = .title_complete ∨ e.type = .complete ∨ e.type = .error)) →
        conv'.messages = [sampleAnswer, sampleUser]) :=
  C5_stale_event_frame sampleSent ⟨"c2", [sampleAnswer, sampleUser]⟩
    [⟨.stage1_complete, some ⟨"late"⟩⟩, ⟨.stage2_start, none⟩, ⟨.complete, none⟩]

/-- C6 fails as stated: `stage1_complete(x)` followed by `stage1_complete(null)`
leaves `stage1` non-null after the first event and `null` after the second. -/
theorem C6_counterexample :
    ∃ s1 s2 c1 c2 m1 m2,
      applyEvents sampleSent
          (List.take 1 [⟨.stage1_complete, some ⟨"x"⟩⟩, ⟨.stage1_complete, none⟩]) = .ok s1 ∧
      applyEvents sampleSent
          (List.take 2 [⟨.stage1_complete, some ⟨"x"⟩⟩, ⟨.stage1_complete, none⟩]) = .ok s2 ∧
      s1.currentConversation = some c1 ∧ s2.currentConversation = some c2 ∧
      c1.messages.getLast? = some m1 ∧ c2.messages.getLast? = some m2 ∧
      m1.stage .stage1 = some ⟨"x"⟩ ∧ m2.stage .stage1 = none :=
  ⟨_, _, _, _, _, _, rfl, rfl, rfl, rfl, rfl, rfl, rfl, rfl⟩

/-- C6, amended (monotonic stage fill).  When the last message is an assistant
message and no `stageN_complete` of the list carries a `null` payload, every
prefix of the list is applied without failure, and if `stageN` of the last
message is non-null after a prefix it is non-null after every longer prefix. -/
theorem C6_monotonic_fill (s : State) (conv : Conversation) (last : Message)
    (evs : List Event) (n : Stage) (i j : Nat)
    (hconv : s.currentConversation = some conv)
    (hlast : conv.messages.getLast? = some last)
    (hrole : last.role = "assistant")
    (hp : ∀ e ∈ evs, e.type = EventType.done n → e.payload ≠ none)
    (hij : i ≤ j) :
    ∃ si sj ci cj mi mj,
      applyEvents s (evs.take i) = .ok si ∧ applyEvents s (evs.take j) = .ok sj ∧
      si.currentConversation = some ci ∧ sj.currentConversation = some cj ∧
      ci.messages.getLast? = some mi ∧ cj.messages.getLast? = some mj ∧
      (mi.stage n ≠ none → mj.stage n ≠ none) := by
  obtain ⟨si, ci, a1, a2, -, -, a5, -⟩ := applyEvents_last (evs.take i) s conv last hconv hlast hrole
  obtain ⟨sj, cj, b1, b2, -, -, b5, -⟩ := applyEvents_last (evs.take j) s conv last hconv hlast hrole
  refine ⟨si, sj, ci, cj, _, _, a1, b1, a2, b2, a5, b5, ?_⟩
  intro hnn
  have hsplit : evs.take j = evs.take i ++ (evs.take j).drop i := by
    have h := List.take_append_drop i (evs.take j)
    rw [List.take_take, Nat.min_eq_left hij] at h
    exact h.symm
  rw [hsplit, messageAfter_append]
  apply messageAfter_stage_nonnull n _ _ _ hnn
  intro e he
  exact hp e (List.mem_of_mem_take (List.mem_of_mem_drop he))

/-- Witness of the amended C6: two non-null completions of stage 1. -/
theorem C6_monotonic_fill_witness :
    sampleSent.currentConversation = some ⟨"c1", [sampleUser, assistantMessage]⟩ ∧
    ∃ si sj ci cj mi mj,
      applyEvents sampleSent
          (List.take 1 [⟨.stage1_complete, some ⟨"x"⟩⟩, ⟨.stage1_complete, some ⟨"y"⟩⟩]) = .ok si ∧
      applyEvents sampleSent
          (List.take 2 [⟨.stage1_complete, some ⟨"x"⟩⟩, ⟨.stage1_complete, some ⟨"y"⟩⟩]) = .ok sj ∧
      si.currentConversation = some ci ∧ sj.currentConversation = some cj ∧
      ci.messages.getLast? = some mi ∧ cj.messages.getLast? = some mj ∧
      (mi.stage .stage1 ≠ none → mj.stage .stage1 ≠ none) :=
  ⟨rfl, C6_monotonic_fill sampleSent ⟨"c1", [sampleUser, assistantMessage]⟩ assistantMessage
    [⟨.stage1_complete, some ⟨"x"⟩⟩, ⟨.stage1_complete, some ⟨"y"⟩⟩] .stage1 1 2 rfl rfl rfl
    (by
      intro e he _
      simp only [List.mem_cons, List.mem_singleton, List.not_mem_nil, or_false] at he
      rcases he with h | h <;> subst h <;> simp)
    (by decide)⟩

/-- C7 (loading flag pairing).  From a transcript whose last message is the fresh
assistant placeholder, every finite list of events is applied without failure,
and afterwards `loading.stageN` of the last message is `true` if and only if
the list holds a `stageN_start` that no later `stageN_complete` follows. -/
theorem C7_loading_pairing (s : State) (conv : Conversation) (evs : List Event) (n : Stage)
    (hconv : s.currentConversation = some conv)
    (hlast : conv.messages.getLast? = some assistantMessage) :
    ∃ s' conv' last', applyEvents s evs = .ok s' ∧
      s'.currentConversation = some conv' ∧
      conv'.messages.getLast? = some last' ∧
      (last'.loadingFlag n = some true ↔
        ∃ pre q post, evs = pre ++ (⟨EventType.start n, q⟩ : Event) :: post ∧
          ∀ e ∈ post, e.type ≠ EventType.done n) := by
  obtain ⟨s', conv', h1, h2, -, -, h5, -⟩ := applyEvents_last evs s conv assistantMessage hconv hlast rfl
  refine ⟨s', conv', _, h1, h2, h5, ?_⟩
  rw [messageAfter_flag]
  constructor
  · rintro (h | ⟨h, -⟩)
    · exact h
    · cases n <;> simp [assistantMessage, Message.loadingFlag, Loading.flag] at h
  · exact Or.inl

/-- Witness of C7: stage 1 started and completed, stage 2 started and pending. -/
theorem C7_loading_pairing_witness :
    sampleSent.currentConversation = some ⟨"c1", [sampleUser, assistantMessage]⟩ ∧
    ∃ s' conv' last',
      applyEvents sampleSent
        [⟨.stage1_start, none⟩, ⟨.stage1_complete, some ⟨"x"⟩⟩, ⟨.stage2_start, none⟩] = .ok s' ∧
      s'.currentConversation = some conv' ∧
      conv'.messages.getLast? = some last' ∧
      (last'.loadingFlag .stage2 = some true ↔
        ∃ pre q post,
          [⟨.stage1_start, none⟩, ⟨.stage1_complete, some ⟨"x"⟩⟩, ⟨.stage2_start, none⟩] =
            pre ++ (⟨EventType.start .stage2, q⟩ : Event) :: post ∧
          ∀ e ∈ post, e.type ≠ EventType.done .stage2) :=
  ⟨rfl, C7_loading_pairing sampleSent ⟨"c1", [sampleUser, assistantMessage]⟩
    [⟨.stage1_start, none⟩, ⟨.stage1_complete, some ⟨"x"⟩⟩, ⟨.stage2_start, none⟩] .stage2 rfl rfl⟩

/-- C8 fails as stated: after `stage1_start` and then `error`, the flag
`loading.stage1` of the last assistant message is still `true`. -/
theorem C8_counterexample :
    ∃ s1 s2 conv' last',
      applyEvents sampleSent [⟨.stage1_start, none⟩] = .ok s1 ∧
      onEvent s1 .error (some ⟨"boom"⟩) = .ok s2 ∧
      s2.currentConversation = some conv' ∧
      conv'.messages.getLast? = some last' ∧
      last'.loadingFlag .stage1 = some true ∧
      ¬ (last'.loadingFlag .stage1 = some false ∧ last'.loadingFlag .stage2 = some false ∧
          last'.loadingFlag .stage3 = some false) :=
  ⟨_, _, _, _, rfl, rfl, rfl, rfl, rfl, by decide⟩

/-- C8, amended (mid-stream error).  From a transcript whose last message is the
fresh assistant placeholder, any list of events followed by an in-band `error`
is applied without failure; the `error` leaves the resident conversation as it
stood before it, so the last assistant message keeps every stage result set
before the error (`stageN` is the payload of the last `stageN_complete`, and
`null` when there was none) and every loading flag keeps its value: it is
`false` exactly when no `stageN_start` is left without a later
`stageN_complete`.  The sending indicator is `false`. -/
theorem C8_error_outcome (s : State) (conv : Conversation) (evs : List Event)
    (q : Option Payload)
    (hconv : s.currentConversation = some conv)
    (hlast : conv.messages.getLast? = some assistantMessage) :
    ∃ s1 s2 conv' last',
      applyEvents s evs = .ok s1 ∧
      onEvent s1 .error q = .ok s2 ∧
      s2.currentConversation = s1.currentConversation ∧
      s2.currentConversation = some conv' ∧
      conv'.messages.getLast? = some last' ∧
      s2.isLoading = false ∧
      ∀ n : Stage,
        ((∀ e ∈ evs, e.type ≠ EventType.done n) → last'.stage n = none) ∧
        (∀ pre p post, evs = pre ++ (⟨EventType.done n, p⟩ : Event) :: post →
          (∀ e ∈ post, e.type ≠ EventType.done n) → last'.stage n = p) ∧
        (last'.loadingFlag n = some false ↔
          ¬ ∃ pre p post, evs = pre ++ (⟨EventType.start n, p⟩ : Event) :: post ∧
            ∀ e ∈ post, e.type ≠ EventType.done n) := by
  obtain ⟨s1, conv', h1, h2, -, -, h5, -⟩ :=
    applyEvents_last evs s conv assistantMessage hconv hlast rfl
  refine ⟨s1, _, conv', _, h1, onEvent_spec s1 .error q, ?_, ?_, h5, rfl, ?_⟩
  · simp only [updater_guard, eventUpdater, updater_id]
  · simp only [eventUpdater, updater_id, h2]
  · intro n
    refine ⟨fun h => ?_, fun pre p post he hp => ?_, ?_⟩
    · rw [messageAfter_stage_keep n evs _ h]; cases n <;> rfl
    · rw [he]; exact messageAfter_stage_set n pre post p _ hp
    · have hval := messageAfter_flag_value n evs assistantMessage (Or.inr (by cases n <;> rfl))
      have hflag := messageAfter_flag n evs assistantMessage
      have hfresh : assistantMessage.loadingFlag n ≠ some true := by cases n <;> decide
      constructor
      · intro hf hpend
        have : (messageAfter evs assistantMessage).loadingFlag n = some true :=
          hflag.mpr (Or.inl hpend)
        rw [hf] at this
        exact absurd this (by decide)
      · intro hnp
        rcases hval with hv | hv
        · rcases hflag.mp hv with hpend | ⟨hm, -⟩
          · exact absurd hpend hnp
          · exact absurd hm hfresh
        · exact hv

/-- Witness of the amended C8, which is the scenario of the claim:
`stage1_complete(x)` then `error`. -/
theorem C8_error_outcome_witness :
    sampleSent.currentConversation = some ⟨"c1", [sampleUser, assistantMessage]⟩ ∧
    (∃ s1 s2 conv' last',
      applyEvents sampleSent [⟨.stage1_complete, some ⟨"x"⟩⟩] = .ok s1 ∧
      onEvent s1 .error (some ⟨"boom"⟩) = .ok s2 ∧
      s2.currentConversation = s1.currentConversation ∧
      s2.currentConversation = some conv' ∧
      conv'.messages.getLast? = some last' ∧
      s2.isLoading = false ∧
      ∀ n : Stage,
        ((∀ e ∈ [(⟨.stage1_complete, some ⟨"x"⟩⟩ : Event)], e.type ≠ EventType.done n) →
          last'.stage n = none) ∧
        (∀ pre p post,
          [(⟨.stage1_complete, some ⟨"x"⟩⟩ : Event)] = pre ++ (⟨EventType.done n, p⟩ : Event) :: post →
          (∀ e ∈ post, e.type ≠ EventType.done n) → last'.stage n = p) ∧
        (last'.loadingFlag n = some false ↔
          ¬ ∃ pre p post,
            [(⟨.stage1_complete, some ⟨"x"⟩⟩ : Event)] = pre ++ (⟨EventType.start n, p⟩ : Event) :: post ∧
            ∀ e ∈ post, e.type ≠ EventType.done n)) ∧
    (∃ s1 s2 conv' last',
      applyEvents sampleSent [⟨.stage1_complete, some ⟨"x"⟩⟩] = .ok s1 ∧
      onEvent s1 .error (some ⟨"boom"⟩) = .ok s2 ∧
      s2.currentConversation = some conv' ∧
      conv'.messages.getLast? = some last' ∧
      last'.stage1 = some ⟨"x"⟩ ∧ last'.stage2 = none ∧ last'.stage3 = none ∧
      last'.loadingFlag .stage1 = some false ∧ last'.loadingFlag .stage2 = some false ∧
      last'.loadingFlag .stage3 = some false ∧ s2.isLoading = false) :=
  ⟨rfl,
    C8_error_outcome sampleSent ⟨"c1", [sampleUser, assistantMessage]⟩
      [⟨.stage1_complete, some ⟨"x"⟩⟩] (some ⟨"boom"⟩) rfl rfl,
    ⟨_, _, _, _, rfl, rfl, rfl, rfl, rfl, rfl, rfl, rfl, rfl, rfl, rfl⟩⟩

/-- C9 fails as stated: from the loaded, idle conversation `c1`, a send, a
`stage1_start`, a second send and a second `stage1_start` leave six messages of
which the fourth and the sixth are assistant messages with `loading.stage1`
true: two messages are in flight and one of them is not the last. -/
theorem C9_counterexample :
    idle sampleLoaded = true ∧
    ∃ s conv m3 m5,
      run (fun f => "blob:" ++ f) sampleLoaded
        [.send "a" none, .event ⟨.stage1_start, none⟩, .send "b" none,
          .event ⟨.stage1_start, none⟩] = .ok s ∧
      s.currentConversation = some conv ∧
      conv.messages.length = 6 ∧
      conv.messages[3]? = some m3 ∧ m3.role = "assistant" ∧ m3.inFlight = true ∧
      conv.messages[5]? = some m5 ∧ m5.role = "assistant" ∧ m5.inFlight = true :=
  ⟨rfl, _, _, _, _, rfl, rfl, rfl, rfl, rfl, rfl, rfl, rfl, rfl⟩

/-- C9, amended (invariant I1).  From a loaded conversation with no loading flag
set, every list of sends, events and rollbacks in which each send is taken
when no loading flag is set runs without failure, and in the state it reaches
an assistant message with a loading flag set is the last element of the
message list; hence at most one assistant message has one. -/
theorem C9_single_in_flight (url : String → String) (s0 : State) (conv0 : Conversation)
    (acts : List Action)
    (hc : s0.currentConversation = some conv0)
    (h0 : ∀ m ∈ conv0.messages, m.inFlight = false)
    (hs : sendsWhenIdle url s0 acts = true) :
    ∃ s conv, run url s0 acts = .ok s ∧ s.currentConversation = some conv ∧
      (∀ (i : Nat) (m : Message), conv.messages[i]? = some m → m.role = "assistant" →
        m.inFlight = true → i + 1 = conv.messages.length) ∧
      (∀ (i j : Nat) (mi mj : Message), conv.messages[i]? = some mi → conv.messages[j]? = some mj →
        mi.role = "assistant" → mi.inFlight = true →
        mj.role = "assistant" → mj.inFlight = true → i = j) := by
  obtain ⟨s, conv, hrun, hconv⟩ := run_loaded url acts s0 conv0 hc
  have hidle : idle s0 = true := by
    simp only [idle, hc, List.all_eq_true, Bool.not_eq_true']
    exact h0
  have hq := quietInit_run url acts s0 s (quietInit_of_idle s0 hidle) hs hrun
  have key : ∀ (i : Nat) (m : Message), conv.messages[i]? = some m → m.inFlight = true →
      i + 1 = conv.messages.length := by
    intro i m hm hf
    obtain ⟨hi, hget⟩ := List.getElem?_eq_some_iff.mp hm
    by_contra hne
    have hlt : i < conv.messages.dropLast.length := by
      rw [List.length_dropLast]; omega
    have hmem : conv.messages.dropLast[i] ∈ conv.messages.dropLast := List.getElem_mem hlt
    rw [List.getElem_dropLast, hget] at hmem
    have := hq conv hconv m hmem
    rw [hf] at this
    exact absurd this (by decide)
  refine ⟨s, conv, hrun, hconv, fun i m hm _ hf => key i m hm hf, ?_⟩
  intro i j mi mj hi hj _ hfi _ hfj
  have h1 := key i mi hi hfi
  have h2 := key j mj hj hfj
  omega

/-- Witness of the amended C9: a full turn, a second send, and its rollback. -/
theorem C9_single_in_flight_witness :
    sampleLoaded.currentConversation = some ⟨"c1", [sampleUser, sampleAnswer]⟩ ∧
    sendsWhenIdle (fun f => "blob:" ++ f) sampleLoaded
      [.send "a" none, .event ⟨.stage1_start, none⟩, .event ⟨.stage1_complete, some ⟨"x"⟩⟩,
        .event ⟨.complete, none⟩, .send "b" none, .event ⟨.stage1_start, none⟩, .reject] = true ∧
    ∃ s conv,
      run (fun f => "blob:" ++ f) sampleLoaded
        [.send "a" none, .event ⟨.stage1_start, none⟩, .event ⟨.stage1_complete, some ⟨"x"⟩⟩,
          .event ⟨.complete, none⟩, .send "b" none, .event ⟨.stage1_start, none⟩, .reject] = .ok s ∧
      s.currentConversation = some conv ∧
      (∀ (i : Nat) (m : Message), conv.messages[i]? = some m → m.role = "assistant" →
        m.inFlight = true → i + 1 = conv.messages.length) ∧
      (∀ (i j : Nat) (mi mj : Message), conv.messages[i]? = some mi → conv.messages[j]? = some mj →
        mi.role = "assistant" → mi.inFlight = true →
        mj.role = "assistant" → mj.inFlight = true → i = j) :=
  ⟨rfl, rfl,
    C9_single_in_flight (fun f => "blob:" ++ f) sampleLoaded ⟨"c1", [sampleUser, sampleAnswer]⟩
      [.send "a" none, .event ⟨.stage1_start, none⟩, .event ⟨.stage1_complete, some ⟨"x"⟩⟩,
        .event ⟨.complete, none⟩, .send "b" none, .event ⟨.stage1_start, none⟩, .reject]
      rfl (by decide) rfl⟩

/-- C10 at the failing input.  With no selected id `handleSendMessage` returns
the state as it was; with the id `c1` selected and the resident conversation
still `null`, the guard passes and the append updater reads `prev.messages` of
`null`, as the rollback updater of the `catch` branch does: the call fails. -/
theorem C10_send_without_conversation :
    (∀ (url : String → String) (convs : List ConversationSummary) (conv : Option Conversation)
        (isLoading : Bool) (calls : List ApiCall) (content : String) (image : Option ImageInput),
        handleSendMessage url ⟨convs, none, conv, isLoading, calls⟩ content image =
          .ok ⟨convs, none, conv, isLoading, calls⟩) ∧
    idIsFalsy (some "c1") = false ∧
    setCurrentConversation (appendMessage (userMessage (fun f => "blob:" ++ f) "hi" none))
        (setIsLoading true ⟨[], some "c1", none, false, []⟩) = .error JsError.typeError ∧
    handleSendMessage (fun f => "blob:" ++ f) ⟨[], some "c1", none, false, []⟩ "hi" none =
      .error JsError.typeError ∧
    updateLastAssistant (startUpdater .stage1) ⟨[], some "c1", none, false, []⟩ =
      .ok ⟨[], some "c1", none, false, []⟩ :=
  ⟨fun _ _ _ _ _ _ _ => rfl, rfl, rfl, rfl, rfl⟩

end App
